import Mathlib

/-!
Verification of the artificial-grammar-toolkit node-tree engine.

This file gives a shallow embedding, in Lean 4, of the two Python modules of
the repository:

  * `node-tree.py`                      (embedded names prefixed `nt`)
  * `artificial_grammar_toolkit.py`     (embedded names prefixed `agt`)

Python dicts are embedded as association lists with right-biased update
(`dUpd`), Python exceptions as an explicit error type (`PyErr`) threaded
through `Except`, and the pseudo-random generator as an explicit list of
draws (`Rng`).  Each definition carries a comment naming the source lines it
embeds.  Definitions are written from the source code as it stands, bugs
included; a few clearly-labelled `spec...` definitions restate what the
spec's words say, for comparison.
-/

/-- Python runtime errors that the embedded code can raise. -/
inductive PyErr where
  | typeError
  | attrError
  | nameError
  | indexError
  | assertError
  | unboundLocalError
  | valueError
  | stopIteration
  | recursionError
  deriving Repr, DecidableEq

/-- A Python dict with string keys and string values (association list,
later entries shadow earlier ones only through `dUpd`). -/
abbrev Upd := List (String × String)

/-- The keys of a dict. -/
def dKeys (d : Upd) : List String := d.map Prod.fst

/-- `a.update(b)` on Python dicts: entries of `b` win, other entries of `a`
survive. -/
def dUpd (a b : Upd) : Upd := a.filter (fun p => decide (p.1 ∉ dKeys b)) ++ b

/-- The pseudo-random source: the explicit list of draws an injectable
generator will produce.  An exhausted list keeps yielding 0. -/
abbrev Rng := List Nat

/-- Consume one draw from the random source. -/
def rngDraw : Rng → Nat × Rng
  | [] => (0, [])
  | n :: r => (n, r)

/-! ## Generated trees and `Node.execute` (node-tree.py lines 272-301)

A generated node holds an id (standing for the Python object identity, used
to look up its `exec_func` in an action table), the scope snapshot frozen at
generation, and its generated children.  `traversal_order` is the default
`children + [self]` that `Node.generate` installs (node-tree.py lines
205-208); no subclass ever passes a custom order. -/

inductive GNode where
  | node (id : Nat) (scope : Upd) (children : List GNode)
  deriving Repr

/-- An action table: `exec_func` of the node with the given id, or `none`.
An action gets the environment and the node's (updated) scope snapshot and
returns a new environment plus optional scope updates, exactly the
`(env, scope, **kwargs) -> Optional[Dict]` contract with the opaque
environment made explicit.  The caller-supplied keyword context is a fixed
extra value closed over by the table. -/
abbrev Acts (E : Type) := Nat → Option (E → Upd → E × Option Upd)

mutual

/-- Post-order node list: the order in which `execute` visits "self" nodes,
per the default `traversal_order = children + [self]`. -/
def ntPostOrder : GNode → List GNode
  | .node i s cs => ntPostOrderList cs ++ [.node i s cs]

def ntPostOrderList : List GNode → List GNode
  | [] => []
  | c :: cs => ntPostOrder c ++ ntPostOrderList cs

end

mutual

/-- `Node.execute` of node-tree.py (lines 272-301):
`cumulative_updates = updates`; for each node of `traversal_order`
(children, then self): `node.scope.update(cumulative_updates)`; for self,
run `exec_func(env=env, scope=self.scope, **kwargs)`; for a child, recurse
with the cumulative updates; merge what comes back into the cumulative
dict; finally return the cumulative dict.

Two aliasing effects of the Python code are absorbed by this value-level
transcription, both because the cumulative dict only ever gains keys (see
`ntExecute_keys`) and later `update`s win: the pre-recursion
`node.scope.update(cumulative_updates)` on a *child* is repeated inside
the child's own visit with a superset of the keys, and the child mutates
the very `cumulative_updates` object it was handed, so the parent's final
merge of `new_updates` re-merges what the child already merged. -/
def ntExecute {E : Type} (acts : Acts E) : GNode → E → Upd → E × Upd
  | .node i sc cs, env, updates =>
    let r := ntExecuteList acts cs env updates
    match acts i with
    | some f =>
        let res := f r.1 (dUpd sc r.2)
        (res.1, dUpd r.2 (res.2.getD []))
    | none => (r.1, r.2)

/-- The children part of the `for node in self.traversal_order` loop. -/
def ntExecuteList {E : Type} (acts : Acts E) : List GNode → E → Upd → E × Upd
  | [], env, updates => (env, updates)
  | c :: cs, env, updates =>
    let res := ntExecute acts c env updates
    ntExecuteList acts cs res.1 (dUpd updates res.2)

end

/-- One visit of the specification-side linear pass: merge the cumulative
updates into the visited node's snapshot, run its action on that merged
scope, and fold the returned updates into the cumulative dict. -/
def ntExecStep {E : Type} (acts : Acts E) (acc : E × Upd) : GNode → E × Upd
  | .node i sc _ =>
    match acts i with
    | some f =>
        let res := f acc.1 (dUpd sc acc.2)
        (res.1, dUpd acc.2 (res.2.getD []))
    | none => acc

/-- `Node.execute` of artificial_grammar_toolkit.py (lines 127-141): runs
`self.exec_func(env, self.scope, **kwargs)` first (result discarded), then
`for c in self.children: scope = c.execute(scope=scope, env=None) or scope`
reads the local `scope` before any assignment — `UnboundLocalError`; with no
children the final `return scope` hits the same undefined local.  The action
result is dropped, so the action type is just an environment transformer. -/
def agtExecute {E : Type} (acts : Nat → Option (E → Upd → E)) :
    GNode → E → E × Except PyErr Upd
  | .node i sc _, env =>
    let env' := match acts i with
      | some f => f env sc
      | none => env
    (env', .error .unboundLocalError)

/-! ## Render (node-tree.py lines 359-363, 469-470; agt lines 317-318,
412-413)

A render-time tree: string/empty leaves and Concat-family nodes with their
generated children.  `ConcFam` records which class of the Concat family the
object is an instance of. -/

inductive ConcFam where
  | concatF
  | repeatF
  | unionF
  | optionalF
  deriving Repr, DecidableEq

inductive RTree where
  | strLeaf (s : String)
  | emptyLeaf
  | fam (k : ConcFam) (children : List RTree)
  deriving Repr

mutual

/-- Render in node-tree.py: `StringNode.render` returns `self.string` (line
360), `ConcatNode.render` returns `''.join(map(lambda c: c.render(),
self.children))` (line 470); Repeat/Union/Optional inherit it.  No random
call is made anywhere. -/
def ntRender : RTree → String
  | .strLeaf s => s
  | .emptyLeaf => ""
  | .fam _ cs => ntRenderList cs

def ntRenderList : List RTree → String
  | [] => ""
  | c :: cs => ntRender c ++ ntRenderList cs

end

mutual

/-- Render in artificial_grammar_toolkit.py.  `ConcatNode.render` joins the
children (line 318); `UnionNode.render` is `random.choice(self.children)
.render()` (line 413) — a fresh draw from the random source at render time;
`random.choice` raises `IndexError` on an empty sequence, otherwise returns
the element at the drawn index.  Fuel models Python's recursion limit. -/
def agtRenderF : Nat → RTree → Rng → (Except PyErr String) × Rng
  | 0, _, r => (.error .recursionError, r)
  | _ + 1, .strLeaf s, r => (.ok s, r)
  | _ + 1, .emptyLeaf, r => (.ok "", r)
  | fuel + 1, .fam k cs, r =>
    if k = .unionF ∨ k = .optionalF then
      match cs with
      | [] => (.error .indexError, r)
      | c0 :: rest =>
        let (n, r') := rngDraw r
        agtRenderF fuel ((c0 :: rest).getD (n % (rest.length + 1)) c0) r'
    else agtRenderListF fuel cs r

def agtRenderListF : Nat → List RTree → Rng → (Except PyErr String) × Rng
  | 0, _, r => (.error .recursionError, r)
  | _ + 1, [], r => (.ok "", r)
  | fuel + 1, c :: cs, r =>
    let p := agtRenderF fuel c r
    match p.1 with
    | .error e => (.error e, p.2)
    | .ok s =>
      let q := agtRenderListF fuel cs p.2
      match q.1 with
      | .error e => (.error e, q.2)
      | .ok s2 => (.ok (s ++ s2), q.2)

end

mutual

/-- The invariant `generate` establishes on Union/Optional nodes: sampling
with `N=1` leaves exactly one generated child. -/
def unionsSingle : RTree → Bool
  | .strLeaf _ => true
  | .emptyLeaf => true
  | .fam k cs =>
    (if k = .unionF ∨ k = .optionalF then decide (cs.length = 1) else true)
      && unionsSingleList cs

def unionsSingleList : List RTree → Bool
  | [] => true
  | c :: cs => unionsSingle c && unionsSingleList cs

end

/-! ## Concrete example data -/

/-- A Concat (id 4) of three action-bearing children A=1, B=2, C=3, all with
empty snapshots: the spec's `[A,B,C]` execution example. -/
def tABC : GNode := .node 4 [] [.node 1 [] [], .node 2 [] [], .node 3 [] []]

/-- The environment used to observe execution order: a log of
(node id, scope snapshot the action received). -/
abbrev ExecLog := List (Nat × Upd)

/-- Recording actions: node `i` logs `(i, scope)` and returns the
single-entry update binding `str(i)` to `"v"`. -/
def abcActs : Acts ExecLog :=
  fun i => some (fun env sc => (env ++ [(i, sc)], some [(toString i, "v")]))

/-- The same recording actions for the agt executor (whose action results
are dropped by `Node.execute`). -/
def abcActsAgt : Nat → Option (ExecLog → Upd → ExecLog) :=
  fun i => some (fun env sc => env ++ [(i, sc)])

/-- A generated `UnionNode("down","press")`: generation fixed the single
child `"down"`. -/
def tUnionDown : RTree := .fam .unionF [.strLeaf "down"]

/-! ## Scope snapshots and shared mutable values (node-tree.py lines
210-222; artificial_grammar_toolkit.py lines 104-115)

To express mutation of values nested inside a scope we model the Python
heap explicitly: a scope maps keys to either an immutable primitive or a
reference to a mutable heap cell.  `scope.copy()` (node-tree.py line 214)
copies the mapping but shares the references; `deepcopy(scope)`
(artificial_grammar_toolkit.py line 115) also copies the referenced cells
to fresh addresses. -/

abbrev Addr := Nat

inductive SVal where
  | prim (s : String)
  | ref (a : Addr)
  deriving Repr, DecidableEq

/-- A scope whose values may be shared mutable objects. -/
abbrev HScope := List (String × SVal)

/-- The heap backing the mutable objects. -/
abbrev Heap := List (Addr × String)

def heapGet (h : Heap) (a : Addr) : Option String :=
  (h.find? (fun p => p.1 == a)).map Prod.snd

/-- In-place mutation of the object stored at address `a`. -/
def heapSet (h : Heap) (a : Addr) (v : String) : Heap :=
  h.map (fun p => if p.1 = a then (a, v) else p)

def heapMaxAddr (h : Heap) : Nat := h.foldl (fun m p => max m p.1) 0

/-- The heap addresses a scope refers to. -/
def scopeRefs (s : HScope) : List Addr :=
  s.foldr (fun p acc => match p.2 with | .prim _ => acc | .ref a => a :: acc) []

/-- node-tree.py line 214: `self.scope = scope.copy()` — a fresh mapping
that still shares every referenced object. -/
def ntScopeSnapshot (scope : HScope) : HScope := scope

/-- artificial_grammar_toolkit.py line 115: `self.scope = deepcopy(scope)`.
Referenced cells are copied to fresh addresses `nxt, nxt+1, ...`. -/
def deepcopyAux : HScope → Heap → Nat → HScope × Heap
  | [], h, _ => ([], h)
  | (k, .prim v) :: rest, h, nxt =>
    let r := deepcopyAux rest h nxt
    ((k, .prim v) :: r.1, r.2)
  | (k, .ref a) :: rest, h, nxt =>
    let content := (heapGet h a).getD ""
    let r := deepcopyAux rest (h ++ [(nxt, content)]) (nxt + 1)
    ((k, .ref nxt) :: r.1, r.2)

def agtScopeSnapshot (scope : HScope) (h : Heap) : HScope × Heap :=
  deepcopyAux scope h (heapMaxAddr h + 1)

/-- What an `exec_func` observes of its scope snapshot: every binding with
shared references dereferenced against the current heap.  A later `render`
or `execute` of the node passes exactly this view to the node's action
(node-tree.py line 316, agt line 138). -/
def resolveScope (s : HScope) (h : Heap) : List (String × Option String) :=
  s.map (fun p => (p.1, match p.2 with | .prim v => some v | .ref a => heapGet h a))

/-- Concrete scenario: the in-flight scope binds `"k"` to a shared mutable
object at address 0 holding `"old"`. -/
def hScope0 : HScope := [("k", .ref 0)]

def heap0 : Heap := [(0, "old")]

/-! ## The matcher: `is_legal` and `ConcatNode.matches` (node-tree.py lines
653-701, 472-506)

Runtime objects as the matcher sees them.  The class hierarchy is
`EmptyNode <: StringNode <: Node`, `RepeatNode, UnionNode <: ConcatNode <:
Node`, `OptionalNode <: UnionNode`, `ExcludeNode <: Node`, so every
Concat-family instance answers `isinstance(-, ConcatNode)`.

`famO` carries: the family tag, an object id standing for Python object
identity (`==` on `Node` falls back to `is` — no `__eq__` is defined), the
remaining content of the `_all_children` map object together with an
`exhausted` flag (line 435 always stores a `map`; building
`itertools.combinations` at line 439 consumes it), the `N` *attribute*
(`none` when `__init__` got `N=None` and line 437 never set it), and the
generated `children` (`none` models the class default `children = None` of
line 79). -/

inductive NTObj where
  | strO (s : String)
  | emptyO
  | famO (k : ConcFam) (oid : Nat) (allCh : List NTObj) (exhausted : Bool)
      (nAttr : Option Nat) (gchildren : Option (List NTObj))
  | exclO (lhs rhs : NTObj)
  deriving Repr

/-- `itertools.combinations` on a list: all length-`n` subsequences in
original relative order. -/
def combinations {α : Type} : List α → Nat → List (List α)
  | _, 0 => [[]]
  | [], _ + 1 => []
  | x :: xs, n + 1 =>
    (combinations xs n).map (fun c => x :: c) ++ combinations xs (n + 1)

mutual

/-- `is_legal` of node-tree.py (lines 653-701).  The dispatch tests
`isinstance(ast, ConcatNode)` first, so Repeat/Union/Optional instances
take the Concat branch and the Repeat/Union/Optional branches (lines
672-686) are unreachable; String instances fall through Exclude and Empty
to line 694's `isinstance(ast, LiteralNode)` where `LiteralNode` is an
undefined name (and the function body's final `elif isinstance(` at line
700 is syntactically truncated) — a `NameError`.  Fuel models the
recursion limit. -/
def isLegalF : Nat → NTObj → NTObj → Except PyErr Bool
  | 0, _, _ => .error .recursionError
  | fuel + 1, ast, cst =>
    match ast with
    | .famO k oid allCh ex nAttr gch =>
      -- lines 667-671: ConcatNode branch (catches the whole family)
      match cst with
      | .famO k2 oid2 allCh2 ex2 nAttr2 gch2 =>
        concatMatchesF fuel (.famO k oid allCh ex nAttr gch)
          (.famO k2 oid2 allCh2 ex2 nAttr2 gch2)
      | _ => .ok false
    | .exclO l r =>
      -- lines 687-691: ExcludeNode branch
      match cst with
      | .exclO l2 r2 =>
        match isLegalF fuel l l2 with
        | .error e => .error e
        | .ok false => .ok false
        | .ok true => isLegalF fuel r r2
      | _ => .ok false
    | .emptyO =>
      -- lines 692-693: EmptyNode branch
      match cst with
      | .emptyO => .ok true
      | _ => .ok false
    | .strO _ =>
      -- line 694: `isinstance(ast, LiteralNode)` — NameError: the branch
      -- that should handle StringNode does not exist
      .error .nameError

/-- `ConcatNode.matches` of node-tree.py (lines 472-506), reached with both
arguments Concat-family instances.  Line 482 `self == syntax` is object
identity; line 488 reads the `N` attribute (`AttributeError` when
`__init__` got `N=None` and never set it, so the unbounded comparison of
lines 498-501 is unreachable); line 489 takes `len(self.children)`
(`TypeError` on the class default `None`); lines 494-496 build
`itertools.combinations` of the (already exhausted) `_all_children` map
object and line 502 searches them.  The `random.shuffle` of line 497 only
permutes the candidate list and cannot change `any`'s value, so it is not
modelled. -/
def concatMatchesF : Nat → NTObj → NTObj → Except PyErr Bool
  | 0, _, _ => .error .recursionError
  | fuel + 1, .famO _ oid _allCh _ex _nAttr gch,
      .famO _ oid2 allCh2 ex2 nAttr2 _gch2 =>
    if oid = oid2 then .ok true
    else
      match nAttr2 with
      | none => .error .attrError
      | some n =>
        match gch with
        | none => .error .typeError
        | some chs =>
          if chs.length ≠ n then .ok false
          else
            let pool := if ex2 then ([] : List NTObj) else allCh2
            anyLegalF fuel chs (combinations pool n)
  | _ + 1, _, _ => .error .typeError

/-- `all(is_legal(a, b) for a, b in zip(...))` of line 503. -/
def allLegalPairsF : Nat → List (NTObj × NTObj) → Except PyErr Bool
  | 0, _ => .error .recursionError
  | _ + 1, [] => .ok true
  | fuel + 1, (a, b) :: rest =>
    match isLegalF fuel a b with
    | .error e => .error e
    | .ok false => .ok false
    | .ok true => allLegalPairsF fuel rest

/-- `any(... for possible_children in all_possible_children)` of line 502. -/
def anyLegalF : Nat → List NTObj → List (List NTObj) → Except PyErr Bool
  | 0, _, _ => .error .recursionError
  | _ + 1, _, [] => .ok false
  | fuel + 1, chs, poss :: rest =>
    match allLegalPairsF fuel (chs.zip poss) with
    | .error e => .error e
    | .ok true => .ok true
    | .ok false => anyLegalF fuel chs rest

end

/-! ## Sampled Concat construction and generation (node-tree.py lines
391-467; artificial_grammar_toolkit.py lines 268-315) -/

/-- A Python iterable as the Concat constructors store it: either a real
list or a `map` object (lazy, unsized).  `len()` of a `map` object raises
`TypeError`. -/
inductive PyIterable (α : Type) where
  | plainList (l : List α)
  | mapObj (items : List α)
  deriving Repr

def pyLen {α : Type} : PyIterable α → Except PyErr Nat
  | .plainList l => .ok l.length
  | .mapObj _ => .error .typeError

/-- Insertion of a value into a sorted list (ascending). -/
def insSorted (n : Nat) : List Nat → List Nat
  | [] => [n]
  | m :: rest => if n ≤ m then n :: m :: rest else m :: insSorted n rest

/-- `indeces.sort()`: ascending sort. -/
def sortNat : List Nat → List Nat
  | [] => []
  | n :: rest => insSorted n (sortNat rest)

/-- `random.sample(pool, k)`: `k` draws without replacement — each draw
removes the chosen element from the remaining pool. -/
def sampleFrom : Rng → List Nat → Nat → List Nat
  | _, _, 0 => []
  | rng, pool, k + 1 =>
    if h : pool.length = 0 then []
    else
      let (d, rng') := rngDraw rng
      let i : Fin pool.length := ⟨d % pool.length, Nat.mod_lt _ (Nat.pos_of_ne_zero h)⟩
      pool.get i :: sampleFrom rng' (pool.eraseIdx i.1) k

/-- Lines 303-310 of artificial_grammar_toolkit.py, as they would act on a
pool of `p` candidates: `indeces = random.sample(range(len(children)), N);
indeces.sort(); children = [children[i] for i in indeces]` — the sampled
index list, sorted ascending. -/
def agtSampleSortedIdx (rng : Rng) (p n : Nat) : List Nat :=
  sortNat (sampleFrom rng (List.range p) n)

/-- The body of `ConcatNode.__init__` of artificial_grammar_toolkit.py
(lines 287-310), positional-items path, *in isolation*.  No constructor
call with several positional items can reach this body — the inherited
`TemplateNode.__new__` (line 239) accepts exactly one positional
`template` and raises `TypeError` on the arity first (see
`agtConcatNew`) — but even entered directly the body cannot sample:
line 294 stores `children = map(TemplateNode, items)`; with no items line
301 stores `[EmptyNode()]`.  With `N` given, line 304 asserts `N > 0`,
then line 305 evaluates `len(children)` — on the `map` object this raises
`TypeError` before any sampling can happen. -/
def agtConcatInit (rng : Rng) (items : List String) (nOpt : Option Nat) :
    Except PyErr (PyIterable String) :=
  let children : PyIterable String :=
    if items.isEmpty then .plainList [""] else .mapObj items
  match nOpt with
  | none => .ok children
  | some n =>
    if n = 0 then .error .assertError
    else
      match pyLen children with
      | .error e => .error e
      | .ok len =>
        if ¬ (len > n) then .error .assertError
        else
          match children with
          | .mapObj _ => .error .typeError
          | .plainList l =>
            .ok (.plainList ((agtSampleSortedIdx rng len n).map
              (fun i => l.getD i "")))

/-- The attributes a sampled `ConcatNode` of node-tree.py would carry
after its `__init__` (lines 435-442): `_all_children` (a `map` object,
consumed by building `itertools.combinations` at line 439), the `N`
attribute, and the remaining items of `children_it`.  No execution ever
reaches a populated `childrenIt`: the constructor call dies in the
inherited `Node.__new__` on its arity (see `ntConcatNew`), and even the
`__init__` body entered directly dies at line 439 for a non-empty pool
(see `ntConcatInitBody`) — only the empty-pool state, with an *empty*
iterator, survives. -/
structure NTSampledConcat (α : Type) where
  allChildren : PyIterable α
  nAttr : Nat
  childrenIt : List (List α)
  deriving Repr

/-- `ConcatNode.generate` of node-tree.py (lines 446-463) on a sampled
state (`self.N` truthy): line 458 asserts `self.N > 0`, then line 459
evaluates `len(self._all_children)` — `TypeError`: `_all_children` is a
`map` object (and an exhausted one).  `next(self.children_it)` at line 461
is never reached.  (With `self.N` falsy the `else` branch keeps the `map`
as `children` and `children + [self]` in `Node.generate` line 208 raises
`TypeError` as well.) -/
def ntConcatSampledGenerate {α : Type} (st : NTSampledConcat α) :
    Except PyErr (List α × NTSampledConcat α) :=
  if st.nAttr = 0 then .error .typeError
  else
    match pyLen st.allChildren with
    | .error e => .error e
    | .ok len =>
      if ¬ (len > st.nAttr) then .error .assertError
      else
        match st.childrenIt with
        | [] => .error .stopIteration
        | c :: rest => .ok (c, { st with childrenIt := rest })

/-! ## Repeat item sequences (node-tree.py lines 562-581;
artificial_grammar_toolkit.py lines 365-382) -/

/-- The loop body of `RepeatNode.generate` in node-tree.py (lines 570-579):
`items.append(items[i])` — reading index `i` of the list being built, which
is empty at `i = 0` — then the separator cases.  Fixed repetition count `R`
(with `repititions=None`, line 565 would already fail: `self.random` is not
an attribute).  The last argument counts the loop iterations still to run
(`R - i`, so the loop is `for i in range(R)`). -/
def ntRepeatItemsGo (sep lastSep : Option String) (R : Nat) :
    List String → Nat → Nat → Except PyErr (List String)
  | acc, _, 0 => .ok acc
  | acc, i, rem + 1 =>
    match acc.getD i "", decide (i < acc.length) with
    | _, false => .error .indexError
    | v, true =>
      let acc1 := acc ++ [v]
      let acc2 :=
        if (i : Int) < (R : Int) - 2 then
          match sep with
          | some s => acc1 ++ [s]
          | none => acc1
        else if (i : Int) = (R : Int) - 2 then
          match lastSep with
          | some ls => acc1 ++ [ls]
          | none =>
            match sep with
            | some s => acc1 ++ [s]
            | none => acc1
        else acc1
      ntRepeatItemsGo sep lastSep R acc2 (i + 1) rem

/-- `RepeatNode.generate` of node-tree.py with a fixed count: build the
items (lines 570-579), then `super().generate(..., children=items)` — and
`ConcatNode.generate` line 457 reads `self.N`, an attribute `__init__`
(line 437) never set because `RepeatNode.__init__` passed `N=None`:
`AttributeError`. -/
def ntRepeatGenerate (sep lastSep : Option String) (R : Nat) :
    Except PyErr (List String) :=
  match ntRepeatItemsGo sep lastSep R [] 0 R with
  | .error e => .error e
  | .ok _ => .error .attrError

/-- The loop of `RepeatNode.__init__` in artificial_grammar_toolkit.py
(lines 371-380): `items.append(item)`, then `sep` after position `i` when
`i < N - 2`, and `last_sep` (falling back to `sep`) when `i == N - 2`.
The last argument counts the loop iterations still to run (`R - i`, so the
loop is `for i in range(R)`). -/
def agtRepeatGo (item : String) (sep lastSep : Option String) (R : Nat) :
    Nat → Nat → List String
  | _, 0 => []
  | i, rem + 1 =>
    (item :: (if (i : Int) < (R : Int) - 2 then
        match sep with
        | some s => [s]
        | none => []
      else if (i : Int) = (R : Int) - 2 then
        match lastSep with
        | some ls => [ls]
        | none =>
          match sep with
          | some s => [s]
          | none => []
      else [])) ++ agtRepeatGo item sep lastSep R (i + 1) rem

/-- The full item sequence built by `RepeatNode.__init__` of
artificial_grammar_toolkit.py for repetition count `R`. -/
def agtRepeatItems (item : String) (sep lastSep : Option String) (R : Nat) :
    List String :=
  agtRepeatGo item sep lastSep R 0 R

/-- Modelled from the spec (section 4.2, Repeat): the separator of gap `g`
counting gaps from the end — the final gap uses `last_sep` if supplied else
`sep`, every other gap uses `sep`. -/
def specGapSep (sep lastSep : Option String) (isLast : Bool) : List String :=
  match (if isLast then (match lastSep with | some ls => some ls | none => sep)
         else sep) with
  | some x => [x]
  | none => []

/-- Modelled from the spec (section 4.2, Repeat): item repeated `R` times
with `sep` between all adjacent occurrences except the final gap, which
uses `last_sep` if supplied else `sep`; `R = 0` yields an empty sequence.
Separators only ever stand strictly between two items. -/
def specRepeatSeq (item : String) (sep lastSep : Option String) : Nat → List String
  | 0 => []
  | 1 => [item]
  | n + 2 =>
    item :: specGapSep sep lastSep (n = 0) ++ specRepeatSeq item sep lastSep (n + 1)

/-! ## `Node.generate` and `ExcludeNode.generate` (node-tree.py lines
170-222, 634-650) -/

/-- A generation-time object of node-tree.py: a `StringNode` or an
`ExcludeNode`, with its `scope` attribute (`none` until the first
generation: the class body's bare annotation `scope: dict` of line 81
creates no attribute) and the Exclude retry `depth`. -/
inductive NTGenNode where
  | strNode (s : String) (scopeAttr : Option Upd)
  | exclNode (lhs rhs : NTGenNode) (scopeAttr : Option Upd) (depth : Option Nat)
  deriving Repr

def ntGenScopeAttr : NTGenNode → Option Upd
  | .strNode _ sc => sc
  | .exclNode _ _ sc _ => sc

/-- `generate` on these objects.  A `StringNode` runs the base
`Node.generate` (lines 170-222) with no children: the traversal is
`[self]`, `self.scope = scope.copy()`, and the scope is returned.  An
`ExcludeNode` (lines 634-650) enters `while True:` and calls
`super().generate(scope=scope, children=[self.lhs])`; the base method's
loop (line 216) evaluates `node.generate(scope=node.scope)` for the child —
an `AttributeError` when `lhs` was never generated (no `scope` attribute;
note it is the child's *own stale scope*, not the in-flight one, that is
passed).  If `lhs` does carry a scope, after the child generates line 639
evaluates `ast.matches(self.rhs)` where `ast` is an undefined name:
`NameError` (never caught: only `RecursionError` and `StopIteration`
are). -/
def ntGenerate : NTGenNode → Upd → Except PyErr (NTGenNode × Upd)
  | .strNode s _, scope => .ok (.strNode s (some scope), scope)
  | .exclNode lhs _rhs _ _d, _scope =>
    match ntGenScopeAttr lhs with
    | none => .error .attrError
    | some s0 =>
      match ntGenerate lhs s0 with
      | .error e => .error e
      | .ok _ => .error .nameError

/-! ## `_lazy_eval` and the string branch of `Node.__new__` (node-tree.py
lines 20-55, 131-134) -/

/-- A Python value as `_lazy_eval` can produce one: a plain string, a
`Node` object, a zero-positional-argument callable, or a dict (the
`kwargs` local). -/
inductive PyVal where
  | pyStr (s : String)
  | pyNode (t : RTree)
  | pyCallable (f : Upd → PyVal)
  | pyDict (d : Upd)

/-- `_lazy_eval(var, **kwargs)` (node-tree.py lines 20-55).  A callable is
invoked with the keyword context.  A string is looked up in `locals()` —
which, at line 47, binds exactly `var` (the string itself) and `kwargs` —
then in the module globals `g`; an unresolved name falls back to the raw
string itself (line 53), not to a `StringNode`.  Anything else raises
`ValueError`. -/
def ntLazyEval (var : PyVal) (ctx : Upd) (g : List (String × PyVal)) :
    Except PyErr PyVal :=
  match var with
  | .pyCallable f => .ok (f ctx)
  | .pyStr s =>
    if s = "var" then .ok (.pyStr s)
    else if s = "kwargs" then .ok (.pyDict ctx)
    else
      match (g.find? (fun p => p.1 == s)).map Prod.snd with
      | some v => .ok v
      | none => .ok (.pyStr s)
  | _ => .error .valueError

/-- The `isinstance(template, str)` branch of `Node.__new__` (node-tree.py
lines 133-134): `return _lazy_eval(template, **kwargs)`. -/
def ntNodeNewStr (s : String) (ctx : Upd) (g : List (String × PyVal)) :
    Except PyErr PyVal :=
  ntLazyEval (.pyStr s) ctx g

/-- Attribute access `x.render()` on a `_lazy_eval` result: only `Node`
objects have a `render` method; on a plain `str` it raises
`AttributeError`. -/
def pyValRender : PyVal → Except PyErr String
  | .pyNode t => .ok (ntRender t)
  | _ => .error .attrError

/-- A module-globals table for the examples: `DOWN` names a bound node
value, `mk_node` names a bound zero-argument callable. -/
def demoGlobals : List (String × PyVal) :=
  [("DOWN", .pyNode (.strLeaf "down")),
   ("mk_node", .pyCallable (fun _ => .pyNode (.strLeaf "made")))]

/-- A generated sampled `ConcatNode` object for the matcher examples. -/
def demoConcatO : NTObj :=
  .famO .concatF 1 [.strO "a", .strO "b", .strO "c"] true (some 2)
    (some [.strO "a", .strO "b"])

/-! ## Sampled-Concat *construction* (node-tree.py lines 83-152, 417-444;
artificial_grammar_toolkit.py lines 239-265, 287-310)

Every subclass constructor call goes through the inherited
`Node.__new__(cls, template, **kwargs)` (node-tree.py line 83) resp.
`TemplateNode.__new__(cls, template, **kwargs)` (agt line 239): those
methods accept exactly one positional argument after `cls`, so
`ConcatNode("a", "b", "c", N=2)` raises `TypeError` on the arity before
any `__init__` runs, and with a single string argument the str branch
returns `_lazy_eval`'s result (keyword arguments such as `N` land in the
unused `kwargs`), which for a plain string is not even a `ConcatNode`, so
`__init__` is again skipped. -/

/-- The constructor call `ConcatNode(*items, N=...)` of node-tree.py as
`Node.__new__` (lines 83-152) receives it, for string items: any arity
other than one positional item is a `TypeError`; one item takes the str
branch (lines 133-134). -/
def ntConcatNew (items : List String) (g : List (String × PyVal)) :
    Except PyErr PyVal :=
  match items with
  | [item] => ntLazyEval (.pyStr item) [] g
  | _ => .error .typeError

/-- The same constructor call in artificial_grammar_toolkit.py:
`TemplateNode.__new__` (lines 239-265) has the identical signature and str
branch (its `_lazy_eval`, lines 23-58, is textually the same function as
node-tree.py's, so the embedding shares `ntLazyEval`). -/
def agtConcatNew (items : List String) (g : List (String × PyVal)) :
    Except PyErr PyVal :=
  match items with
  | [item] => ntLazyEval (.pyStr item) [] g
  | _ => .error .typeError

/-- The body of `ConcatNode.__init__` of node-tree.py (lines 417-444) with
`N = n`, *in isolation* (no constructor call reaches it, see
`ntConcatNew`).  For a non-empty pool it still cannot complete: line 425
builds `map(Node.__new__, items)`, line 435 wraps it in `map(deepcopy, -)`,
and line 439's `itertools.combinations` eagerly consumes that map, so
`Node.__new__(item)` is called with a single argument — the item lands in
`cls` and `template` is missing: `TypeError`, and `children_it` is never
assigned.  Only an empty pool gets through, leaving an exhausted map and
`children_it` iterating `combinations([], n)` — empty for `n ≥ 1`. -/
def ntConcatInitBody (items : List String) (n : Nat) :
    Except PyErr (NTSampledConcat String) :=
  match items with
  | [] =>
    .ok { allChildren := .mapObj []
          nAttr := n
          childrenIt := combinations ([] : List String) n }
  | _ :: _ => .error .typeError

/-! # Theorems -/

theorem dKeys_subset_dUpd_left (a b : Upd) : dKeys a ⊆ dKeys (dUpd a b) := by
  intro k hk
  simp only [dKeys, List.mem_map] at hk
  obtain ⟨p, hp, rfl⟩ := hk
  by_cases h : p.1 ∈ dKeys b
  · simp only [dKeys, dUpd, List.map_append, List.mem_append]
    right
    exact h
  · simp only [dKeys, dUpd, List.map_append, List.mem_append]
    left
    exact List.mem_map_of_mem _ (List.mem_filter.mpr ⟨hp, decide_eq_true h⟩)

theorem dUpd_eq_of_keys_subset (a b : Upd) (h : dKeys a ⊆ dKeys b) : dUpd a b = b := by
  have hfil : a.filter (fun p => decide (p.1 ∉ dKeys b)) = [] := by
    apply List.filter_eq_nil_iff.mpr
    intro p hp
    have hmem : p.1 ∈ dKeys b := h (List.mem_map_of_mem _ hp)
    simp only [decide_eq_true_eq, Decidable.not_not]
    exact hmem
  show a.filter (fun p => decide (p.1 ∉ dKeys b)) ++ b = b
  rw [hfil]
  rfl

mutual

/-- The cumulative-updates dict only ever gains keys during `execute`. -/
theorem ntExecute_keys {E : Type} (acts : Acts E) (t : GNode) (env : E)
    (u : Upd) : dKeys u ⊆ dKeys (ntExecute acts t env u).2 := by
  cases t with
  | node i sc cs =>
    have h1 := ntExecuteList_keys acts cs env u
    cases hA : acts i with
    | some f =>
      simp only [ntExecute, hA]
      exact h1.trans (dKeys_subset_dUpd_left _ _)
    | none =>
      simp only [ntExecute, hA]
      exact h1

theorem ntExecuteList_keys {E : Type} (acts : Acts E) (l : List GNode)
    (env : E) (u : Upd) : dKeys u ⊆ dKeys (ntExecuteList acts l env u).2 := by
  cases l with
  | nil => simp [ntExecuteList]
  | cons c cs =>
    have h2 := ntExecuteList_keys acts cs (ntExecute acts c env u).1
      (dUpd u (ntExecute acts c env u).2)
    simp only [ntExecuteList]
    exact (dKeys_subset_dUpd_left _ _ |>.trans h2)

end

mutual

/-- `Node.execute` of node-tree.py is the linear pass over the default
post-order traversal: each visited node's snapshot receives the cumulative
updates before its action runs, and the action's updates join the
cumulative dict. -/
theorem ntExecute_eq_fold {E : Type} (acts : Acts E) (t : GNode) (env : E)
    (u : Upd) :
    ntExecute acts t env u = (ntPostOrder t).foldl (ntExecStep acts) (env, u) := by
  cases t with
  | node i sc cs =>
    have h1 := ntExecuteList_eq_fold acts cs env u
    simp only [ntExecute, ntPostOrder, List.foldl_append, ← h1,
      List.foldl_cons, List.foldl_nil]
    cases hA : acts i with
    | some f => simp [ntExecStep, hA]
    | none => simp [ntExecStep, hA]

theorem ntExecuteList_eq_fold {E : Type} (acts : Acts E) (l : List GNode)
    (env : E) (u : Upd) :
    ntExecuteList acts l env u
      = (ntPostOrderList l).foldl (ntExecStep acts) (env, u) := by
  cases l with
  | nil => simp [ntExecuteList, ntPostOrderList]
  | cons c cs =>
    have h1 := ntExecute_eq_fold acts c env u
    have hd : dUpd u (ntExecute acts c env u).2 = (ntExecute acts c env u).2 :=
      dUpd_eq_of_keys_subset _ _ (ntExecute_keys acts c env u)
    have h2 := ntExecuteList_eq_fold acts cs (ntExecute acts c env u).1
      (ntExecute acts c env u).2
    simp only [ntExecuteList, ntPostOrderList, List.foldl_append, ← h1, hd]
    rw [h2]

end

/-- Claim C4 (amended): in node-tree.py, `Node.execute` on a generated tree
is exactly the linear post-order pass — children then self, each visited
node's action receiving the environment, its snapshot merged with the
cumulative updates of all earlier-visited nodes, and the caller-supplied
context; all updates are accumulated and returned.  On the concrete Concat
of three action-bearing children [A,B,C] = ids [1,2,3] under node id 4, A
runs first with an empty merge, B sees A's update, C sees A's and B's, the
Concat's own action sees all three, and all four updates come back.  (The
restriction to node-tree.py is what the counterexample on
artificial_grammar_toolkit.py's `Node.execute` forces.) -/
theorem c4_execute_postorder_threading :
    (∀ (E : Type) (acts : Acts E) (t : GNode) (env : E) (u : Upd),
      ntExecute acts t env u = (ntPostOrder t).foldl (ntExecStep acts) (env, u))
    ∧ ntExecute abcActs tABC [] []
      = ([(1, []), (2, [("1", "v")]), (3, [("1", "v"), ("2", "v")]),
          (4, [("1", "v"), ("2", "v"), ("3", "v")])],
         [("1", "v"), ("2", "v"), ("3", "v"), ("4", "v")]) := by
  constructor
  · intro E acts t env u
    exact ntExecute_eq_fold acts t env u
  · rfl

/-- Claim C4 counterexample: `Node.execute` of
artificial_grammar_toolkit.py (lines 127-141) on the generated [A,B,C]
Concat runs the Concat's *own* action first (the log holds only node id 4)
and then fails with `UnboundLocalError` on its undefined local `scope`,
instead of executing A, then B, then C, then itself and returning the
accumulated updates. -/
theorem c4_agt_self_first_cex :
    agtExecute abcActsAgt tABC [] = ([(4, [])], .error .unboundLocalError) := by
  rfl

/-- Claim C1 (code bug): a `StringNode` grammar generates successfully (the
derivation is the node itself, scope snapshot frozen), but
`is_legal(derivation, grammar)` does not return `True`: the dispatch of
`is_legal` (node-tree.py lines 653-701) has no branch for `StringNode` —
control falls to `isinstance(ast, LiteralNode)` at line 694 where
`LiteralNode` is an undefined name, raising `NameError` (and the function
body is syntactically truncated at line 700). -/
theorem c1_round_trip_string_bug :
    ntGenerate (.strNode "x" none) [] = .ok (.strNode "x" (some []), [])
    ∧ isLegalF 100 (.strO "x") (.strO "x") = .error .nameError := by
  exact ⟨rfl, rfl⟩

/-- Claim C8 (code bug): when the generated tree is a Concat-family node
and the grammar is not, `is_legal` correctly returns `False` (line 671),
but in the mirrored mismatch — `StringNode` derivation against a
Concat-family grammar — the claim's required `False` never arrives: the
missing `StringNode` branch raises `NameError` instead (line 694). -/
theorem c8_variant_mismatch_bug :
    isLegalF 100 demoConcatO (.strO "a") = .ok false
    ∧ isLegalF 100 (.strO "a") demoConcatO = .error .nameError := by
  exact ⟨rfl, rfl⟩

/-- Claim C7 (code bug): `ExcludeNode.generate` (node-tree.py lines
634-650) cannot run its retry loop at all.  On a fresh `lhs` the base
`Node.generate` loop (line 216) reads the child's missing `scope`
attribute — `AttributeError`; if `lhs` already carries a stale scope, the
first iteration evaluates `ast.matches(self.rhs)` (line 639) where `ast`
is an undefined name — `NameError`.  Neither is caught (only
`RecursionError` and `StopIteration` are), no `NonTerminatingGrammar`
class exists anywhere, and no retry or fallback ever happens. -/
theorem c7_exclude_retry_bug :
    ntGenerate (.exclNode (.strNode "a" none) (.strNode "b" none) none none) []
      = .error .attrError
    ∧ ntGenerate (.exclNode (.strNode "a" (some [])) (.strNode "b" none) none none) []
      = .error .nameError := by
  exact ⟨rfl, rfl⟩

/-- Claim C9 (code bug): the string branch of `Node.__new__` (line 134)
returns `_lazy_eval`'s result unchanged, and for a name bound to nothing
`_lazy_eval` returns the *raw Python string* (line 53), not a `StringNode`:
the result has no `render` method, so nothing "renders that literal text"
(`AttributeError` on use).  A string naming an accessible bound value is
resolved to that value; but a name bound to a callable is returned
*uninvoked* (lines 46-53 never call it — only a template that is itself a
callable is invoked, line 44-45). -/
theorem c9_string_fallback_bug :
    ntNodeNewStr "qqq" [] demoGlobals = .ok (.pyStr "qqq")
    ∧ pyValRender (.pyStr "qqq") = .error .attrError
    ∧ ntNodeNewStr "DOWN" [] demoGlobals = .ok (.pyNode (.strLeaf "down"))
    ∧ ntNodeNewStr "mk_node" [] demoGlobals
        = .ok (.pyCallable (fun _ => .pyNode (.strLeaf "made"))) := by
  exact ⟨rfl, rfl, rfl, rfl⟩

/-- The rendered string of the agt engine does not depend on the random
source, provided every Union/Optional node carries the single child that
`N=1` generation fixes (both runs may consume draws, but the same child is
chosen every time). -/
theorem agtRender_rng_indep (fuel : Nat) :
    (∀ t : RTree, unionsSingle t = true → ∀ r r' : Rng,
      (agtRenderF fuel t r).1 = (agtRenderF fuel t r').1)
    ∧ (∀ l : List RTree, unionsSingleList l = true → ∀ r r' : Rng,
      (agtRenderListF fuel l r).1 = (agtRenderListF fuel l r').1) := by
  induction fuel with
  | zero => exact ⟨fun t _ r r' => rfl, fun l _ r r' => rfl⟩
  | succ n ih =>
    constructor
    · intro t ht r r'
      match t with
      | .strLeaf s => rfl
      | .emptyLeaf => rfl
      | .fam k cs =>
        by_cases hk : k = .unionF ∨ k = .optionalF
        · simp only [unionsSingle, hk, if_true, Bool.and_eq_true,
            decide_eq_true_eq] at ht
          obtain ⟨c0, rfl⟩ := List.length_eq_one.mp ht.1
          have hc0 : unionsSingle c0 = true := by
            have := ht.2
            simp only [unionsSingleList, Bool.and_eq_true] at this
            exact this.1
          simp only [agtRenderF, hk, if_true, List.length_nil, Nat.zero_add,
            Nat.mod_one, List.getD_cons_zero]
          exact ih.1 c0 hc0 (rngDraw r).2 (rngDraw r').2
        · simp only [unionsSingle, hk, if_false, Bool.true_and] at ht
          simp only [agtRenderF, hk, if_false]
          exact ih.2 cs ht r r'
    · intro l hl r r'
      match l with
      | [] => rfl
      | c :: cs =>
        simp only [unionsSingleList, Bool.and_eq_true] at hl
        have h1 := ih.1 c hl.1 r r'
        have h2 := ih.2 cs hl.2 (agtRenderF n c r).2 (agtRenderF n c r').2
        simp only [agtRenderListF]
        cases hres : (agtRenderF n c r').1 with
        | error e =>
          rw [h1, hres]
        | ok s =>
          rw [h1, hres]
          cases hq : (agtRenderListF n cs (agtRenderF n c r').2).1 with
          | error e =>
            rw [h2, hq]
          | ok s2 =>
            rw [h2, hq]

/-- Claim C2 (amended): two renders of the same generated tree always
return the same string — the agt render's result is independent of the
random source whenever every Union/Optional node carries the single child
fixed by `N=1` generation — and a generated Union node always renders to
what its single generation-time child renders to.  (What the
counterexample forces out of the original claim: `UnionNode.render` of
artificial_grammar_toolkit.py line 413 *does* make a fresh `random.choice`
draw at render time; only its result is fixed, because exactly one child
is left.  node-tree.py's render, `ntRender`, takes no random source at
all.) -/
theorem c2_render_fixed_choice (fuel : Nat) (t : RTree)
    (h : unionsSingle t = true) (r r' : Rng) :
    (agtRenderF fuel t r).1 = (agtRenderF fuel t r').1
    ∧ (agtRenderF (fuel + 1) (.fam .unionF [t]) r).1
        = (agtRenderF fuel t (rngDraw r).2).1 := by
  constructor
  · exact (agtRender_rng_indep fuel).1 t h r r'
  · simp only [agtRenderF, eq_self_iff_true, true_or, if_true,
      List.length_nil, Nat.zero_add, Nat.mod_one, List.getD_cons_zero]

theorem c2_render_fixed_choice_witness :
    unionsSingle tUnionDown = true
    ∧ ((agtRenderF 5 tUnionDown [3]).1 = (agtRenderF 5 tUnionDown [99]).1
      ∧ (agtRenderF (5 + 1) (.fam .unionF [tUnionDown]) [3]).1
          = (agtRenderF 5 tUnionDown (rngDraw [3]).2).1) :=
  ⟨rfl, c2_render_fixed_choice 5 tUnionDown rfl [3] [99]⟩

/-- Claim C2 counterexample: rendering the generated
`UnionNode("down","press")` (single generated child "down") under the agt
engine consumes a draw from the random source — a fresh random choice *is*
made during rendering — even though the resulting string is the fixed
child's "down". -/
theorem c2_fresh_draw_cex :
    (agtRenderF 5 tUnionDown [7]).2 ≠ [7]
    ∧ (agtRenderF 5 tUnionDown [7]).1 = .ok "down" := by
  exact ⟨by decide, rfl⟩

/-- Mutating the heap cell at `a` leaves every other cell unchanged. -/
theorem heapGet_heapSet_ne (h : Heap) (a b : Addr) (v : String)
    (hne : b ≠ a) : heapGet (heapSet h a v) b = heapGet h b := by
  induction h with
  | nil => rfl
  | cons p rest ih =>
    by_cases hpa : p.1 = a
    · have hhead : (if p.1 = a then (a, v) else p) = (a, v) := if_pos hpa
      have hb1 : ((a, v).1 == b) = false := by
        simp only [beq_eq_false_iff_ne]
        exact fun hc => hne hc.symm
      have hb2 : (p.1 == b) = false := by
        simp only [beq_eq_false_iff_ne]
        rw [hpa]
        exact fun hc => hne hc.symm
      simp only [heapSet, List.map_cons, hhead, heapGet, List.find?, hb1, hb2]
      exact ih
    · have hhead : (if p.1 = a then (a, v) else p) = p := if_neg hpa
      simp only [heapSet, List.map_cons, hhead, heapGet, List.find?]
      cases hpb : (p.1 == b) with
      | true => rfl
      | false => exact ih

/-- Mutating an object no reference of the scope points at does not change
what the scope resolves to. -/
theorem resolveScope_heapSet_not_ref (s : HScope) (h : Heap) (a : Addr)
    (v : String) (ha : a ∉ scopeRefs s) :
    resolveScope s (heapSet h a v) = resolveScope s h := by
  induction s with
  | nil => rfl
  | cons p rest ih =>
    match p with
    | (k, .prim w) =>
      have ha' : a ∉ scopeRefs rest := by
        simpa [scopeRefs] using ha
      show (k, some w) :: resolveScope rest (heapSet h a v)
        = (k, some w) :: resolveScope rest h
      rw [ih ha']
    | (k, .ref b) =>
      have hcons : scopeRefs ((k, SVal.ref b) :: rest) = b :: scopeRefs rest := rfl
      rw [hcons] at ha
      have hab : a ≠ b := fun hc => ha (hc ▸ List.mem_cons_self _ _)
      have ha' : a ∉ scopeRefs rest := fun hc => ha (List.mem_cons_of_mem _ hc)
      show (k, heapGet (heapSet h a v) b) :: resolveScope rest (heapSet h a v)
        = (k, heapGet h b) :: resolveScope rest h
      rw [heapGet_heapSet_ne h a b v (fun hc => hab hc.symm), ih ha']

/-- Every reference of a deep-copied scope points at a freshly allocated
address (at or above the allocation cursor). -/
theorem deepcopyAux_refs_ge :
    ∀ (s : HScope) (h : Heap) (nxt : Nat),
      ∀ b ∈ scopeRefs (deepcopyAux s h nxt).1, nxt ≤ b := by
  intro s
  induction s with
  | nil => intro h nxt b hb; simp [deepcopyAux, scopeRefs] at hb
  | cons p rest ih =>
    intro h nxt b hb
    match p with
    | (k, .prim w) =>
      have : scopeRefs (deepcopyAux ((k, SVal.prim w) :: rest) h nxt).1
          = scopeRefs (deepcopyAux rest h nxt).1 := rfl
      rw [this] at hb
      exact ih h nxt b hb
    | (k, .ref a) =>
      have : scopeRefs (deepcopyAux ((k, SVal.ref a) :: rest) h nxt).1
          = nxt :: scopeRefs
              (deepcopyAux rest (h ++ [(nxt, (heapGet h a).getD "")]) (nxt + 1)).1 := rfl
      rw [this] at hb
      cases hb with
      | head => exact Nat.le_refl nxt
      | tail _ hb' =>
        exact Nat.le_of_succ_le (ih _ (nxt + 1) b hb')

/-- Claim C3 (amended): a node's scope snapshot is immune to later
key-level mutation of the original scope and to mutation of any object the
snapshot does not share — but node-tree.py's `scope.copy()` (line 214) is
*shallow*, so mutating a value nested inside a shared object does leak into
the snapshot (see the counterexample); full by-value immunity holds only
for artificial_grammar_toolkit.py's `deepcopy(scope)` snapshot (line 115),
whose references are all freshly allocated: mutating any object of the
original heap never changes what the snapshot resolves to for render or
execute. -/
theorem c3_snapshot_immunity (s : HScope) (h : Heap) (a1 a2 : Addr)
    (v1 v2 : String) (h1 : a1 ∉ scopeRefs s) (h2 : a2 ≤ heapMaxAddr h) :
    resolveScope (ntScopeSnapshot s) (heapSet h a1 v1)
      = resolveScope (ntScopeSnapshot s) h
    ∧ resolveScope (agtScopeSnapshot s h).1
        (heapSet (agtScopeSnapshot s h).2 a2 v2)
      = resolveScope (agtScopeSnapshot s h).1 (agtScopeSnapshot s h).2 := by
  constructor
  · exact resolveScope_heapSet_not_ref s h a1 v1 h1
  · apply resolveScope_heapSet_not_ref
    intro hmem
    have hge := deepcopyAux_refs_ge s h (heapMaxAddr h + 1) a2 hmem
    exact absurd (le_trans hge h2) (Nat.not_succ_le_self _)

theorem c3_snapshot_immunity_witness :
    (5 ∉ scopeRefs hScope0 ∧ 0 ≤ heapMaxAddr heap0)
    ∧ (resolveScope (ntScopeSnapshot hScope0) (heapSet heap0 5 "new")
        = resolveScope (ntScopeSnapshot hScope0) heap0
      ∧ resolveScope (agtScopeSnapshot hScope0 heap0).1
          (heapSet (agtScopeSnapshot hScope0 heap0).2 0 "new")
        = resolveScope (agtScopeSnapshot hScope0 heap0).1
            (agtScopeSnapshot hScope0 heap0).2) :=
  ⟨⟨by decide, by decide⟩,
   c3_snapshot_immunity hScope0 heap0 5 0 "new" "new" (by decide) (by decide)⟩

/-- Claim C3 counterexample: node-tree.py's snapshot is `scope.copy()` — a
shallow copy.  With the scope binding `"k"` to a shared mutable object
(address 0, content "old"), mutating that object *after* the snapshot was
taken changes what the snapshot resolves to — the scope dict every later
`execute` hands to the node's action — from `"old"` to `"new"`. -/
theorem c3_nested_mutation_cex :
    resolveScope (ntScopeSnapshot hScope0) (heapSet heap0 0 "new")
      ≠ resolveScope (ntScopeSnapshot hScope0) heap0 := by
  decide

/-- `random.sample` really returns `k` elements when the pool is large
enough. -/
theorem sampleFrom_length (rng : Rng) (pool : List Nat) (k : Nat)
    (hk : k ≤ pool.length) : (sampleFrom rng pool k).length = k := by
  induction k generalizing rng pool with
  | zero => rfl
  | succ m ih =>
    have hne : pool.length ≠ 0 := by omega
    have hlt : (rngDraw rng).1 % pool.length < pool.length :=
      Nat.mod_lt _ (Nat.pos_of_ne_zero hne)
    have herase : (pool.eraseIdx ((rngDraw rng).1 % pool.length)).length
        = pool.length - 1 := by
      rw [List.length_eraseIdx]
      simp [hlt]
    simp only [sampleFrom, dif_neg hne, List.length_cons]
    rw [ih (rngDraw rng).2 _ (by omega)]

/-- Claim C5 (code bug): the claimed sampled-Concat behavior never runs.
The constructor call itself — here pool size 3 or 4 with count 2, which
the claim says must sample — dies with `TypeError` in the inherited
`__new__` of either file, which accepts exactly one positional
`template`.  Even the `__init__` bodies entered directly die with
`TypeError` before any sampling: artificial_grammar_toolkit.py at
`len()` of the `map` of children (line 305), for every random source;
node-tree.py at line 439 consuming `map(Node.__new__, items)`.  Only an
empty pool yields a state at all, and on it `ConcatNode.generate` of
node-tree.py still dies at `len(self._all_children)` (line 459).  No
`SamplingError` class exists anywhere (the pool ≤ N guard is a bare —
and unreachable — assert).  The sampling lines themselves (sample, sort,
select), run on a list, do produce a sorted duplicate-free index
selection: the concrete run shown draws 3 of 5 indices and yields the
strictly increasing `[1, 3, 4]`. -/
theorem c5_sampled_concat_bug :
    agtConcatNew ["a", "b", "c"] demoGlobals = .error .typeError
    ∧ ntConcatNew ["a", "b", "c", "d"] demoGlobals = .error .typeError
    ∧ (∀ rng : Rng, agtConcatInit rng ["a", "b", "c"] (some 2) = .error .typeError)
    ∧ ntConcatInitBody ["a", "b", "c", "d"] 2 = .error .typeError
    ∧ ntConcatInitBody [] 3
        = .ok { allChildren := .mapObj [], nAttr := 3, childrenIt := [] }
    ∧ ntConcatSampledGenerate
        { allChildren := PyIterable.mapObj ([] : List String), nAttr := 3,
          childrenIt := [] }
        = .error .typeError
    ∧ agtSampleSortedIdx [9, 5, 8] 5 3 = [1, 3, 4]
    ∧ List.Chain' (· < ·) [1, 3, 4] := by
  exact ⟨rfl, rfl, fun rng => rfl, rfl, rfl, rfl, rfl,
    List.Chain.cons (by decide) (List.Chain.cons (by decide) List.Chain.nil)⟩

/-- The loop of `RepeatNode.__init__` in artificial_grammar_toolkit.py
builds, from position `i` on, exactly the spec's arrangement for the
remaining `R - i` repetitions. -/
theorem agtRepeatGo_eq_spec (item : String) (sep lastSep : Option String)
    (R : Nat) : ∀ (rem i : Nat), i + rem = R →
      agtRepeatGo item sep lastSep R i rem
        = specRepeatSeq item sep lastSep rem := by
  intro rem
  induction rem with
  | zero => intro i _; rfl
  | succ m ih =>
    intro i hi
    have hrec := ih (i + 1) (by omega)
    simp only [agtRepeatGo, hrec]
    match m with
    | 0 =>
      have h1 : ¬ ((i : Int) < (R : Int) - 2) := by omega
      have h2 : ¬ ((i : Int) = (R : Int) - 2) := by omega
      rw [if_neg h1, if_neg h2]
      rfl
    | 1 =>
      have h1 : ¬ ((i : Int) < (R : Int) - 2) := by omega
      have h2 : (i : Int) = (R : Int) - 2 := by omega
      rw [if_neg h1, if_pos h2]
      cases lastSep <;> cases sep <;> rfl
    | m' + 2 =>
      have h1 : (i : Int) < (R : Int) - 2 := by omega
      rw [if_pos h1]
      cases sep <;> cases lastSep <;> rfl

/-- Claim C6 (code bug): `RepeatNode.generate` of node-tree.py cannot build
the child sequence at all: line 572 appends `items[i]` — an index into the
list being built, empty at `i = 0` — so every positive repetition count
dies with `IndexError` (and even a successful build would then hit the
missing `N` attribute in `ConcatNode.generate`).  The intended arrangement
is exactly what the parallel loop of `RepeatNode.__init__` in
artificial_grammar_toolkit.py (lines 371-380) produces: for every `R` it
equals the spec's sequence — item repeated `R` times, `sep` at every gap
except the final one, which takes `last_sep` if supplied else `sep`, never
leading or trailing, and `R = 0` gives the empty sequence. -/
theorem c6_repeat_separator_bug :
    ntRepeatGenerate (some ", ") (some " and ") 2 = .error .indexError
    ∧ (∀ (item : String) (sep lastSep : Option String) (R : Nat),
        agtRepeatItems item sep lastSep R = specRepeatSeq item sep lastSep R)
    ∧ specRepeatSeq "x" (some ",") none 0 = [] := by
  refine ⟨rfl, ?_, rfl⟩
  intro item sep lastSep R
  have h := agtRepeatGo_eq_spec item sep lastSep R R 0 (by omega)
  simpa [agtRepeatItems] using h

/-- Every member of `combinations l n` has length `n` and is an
order-preserving selection (a sublist) of `l`. -/
theorem mem_combinations_sublist_length {α : Type} :
    ∀ (l : List α) (n : Nat) (c : List α), c ∈ combinations l n →
      c.Sublist l ∧ c.length = n := by
  intro l
  induction l with
  | nil =>
    intro n c hc
    match n, hc with
    | 0, hc =>
      have : c = [] := by simpa [combinations] using hc
      subst this
      exact ⟨List.Sublist.refl _, rfl⟩
  | cons x xs ih =>
    intro n c hc
    match n with
    | 0 =>
      have : c = [] := by simpa [combinations] using hc
      subst this
      exact ⟨List.nil_sublist _, rfl⟩
    | n + 1 =>
      simp only [combinations, List.mem_append, List.mem_map] at hc
      cases hc with
      | inl hmap =>
        obtain ⟨c', hc', rfl⟩ := hmap
        obtain ⟨hsub, hlen⟩ := ih n c' hc'
        exact ⟨List.Sublist.cons₂ x hsub, by simp [hlen]⟩
      | inr hrest =>
        obtain ⟨hsub, hlen⟩ := ih (n + 1) c hrest
        exact ⟨hsub.cons x, hlen⟩

/-- On a duplicate-free pool the precomputed combination list is itself
duplicate-free: consuming it in order never selects the same child
combination twice. -/
theorem combinations_nodup {α : Type} :
    ∀ (l : List α), l.Nodup → ∀ n, (combinations l n).Nodup := by
  intro l
  induction l with
  | nil =>
    intro _ n
    match n with
    | 0 => simp [combinations]
    | n + 1 => simp [combinations]
  | cons x xs ih =>
    intro hnd n
    have hx : x ∉ xs := (List.nodup_cons.mp hnd).1
    have hxs : xs.Nodup := (List.nodup_cons.mp hnd).2
    match n with
    | 0 => simp [combinations]
    | n + 1 =>
      rw [combinations, List.nodup_append]
      refine ⟨(ih hxs n).map (fun a b hab => by simpa using hab), ih hxs (n + 1), ?_⟩
      intro c hcm hcr
      simp only [List.mem_map] at hcm
      obtain ⟨c', _, rfl⟩ := hcm
      have hsub := (mem_combinations_sublist_length xs (n + 1) _ hcr).1
      exact hx (hsub.subset (List.mem_cons_self x c'))

/-- Claim C10 (code bug): node-tree.py's sampled-Concat code spells out a
combination iterator — precompute all C(P,N) order-preserving
combinations, shuffle, consume one per `generate` (lines 437-442, 461) —
and on a duplicate-free pool that precomputed list would be
duplicate-free, so consuming it in order could never repeat a selection
before `StopIteration`; but no execution ever builds it.  The constructor
call dies with `TypeError` in the inherited `Node.__new__` (one
positional `template` only); even the `__init__` body entered directly
dies with `TypeError` at line 439 while `itertools.combinations` consumes
`map(Node.__new__, items)`; only the empty pool yields a state, whose
iterator is *empty*; and `generate` on it still dies with `TypeError` at
`len(self._all_children)` (line 459) before `next(self.children_it)`
(line 461) could consume anything. -/
theorem c10_combination_iterator_bug (l : List Nat) (n : Nat)
    (h : l.Nodup) :
    ntConcatNew ["a", "b", "c"] demoGlobals = .error .typeError
    ∧ ntConcatInitBody ["a", "b", "c"] 2 = .error .typeError
    ∧ ntConcatInitBody [] 2
        = .ok { allChildren := .mapObj [], nAttr := 2, childrenIt := [] }
    ∧ ntConcatSampledGenerate
        { allChildren := PyIterable.mapObj ([] : List String), nAttr := 2,
          childrenIt := [] }
        = .error .typeError
    ∧ (combinations l n).Nodup
    ∧ ∀ c ∈ combinations l n, c.Sublist l ∧ c.length = n := by
  exact ⟨rfl, rfl, rfl, rfl, combinations_nodup l h n,
    fun c hc => mem_combinations_sublist_length l n c hc⟩

theorem c10_combination_iterator_bug_witness :
    ([0, 1, 2] : List Nat).Nodup
    ∧ (ntConcatNew ["a", "b", "c"] demoGlobals = .error .typeError
      ∧ ntConcatInitBody ["a", "b", "c"] 2 = .error .typeError
      ∧ ntConcatInitBody [] 2
          = .ok { allChildren := .mapObj [], nAttr := 2, childrenIt := [] }
      ∧ ntConcatSampledGenerate
          { allChildren := PyIterable.mapObj ([] : List String), nAttr := 2,
            childrenIt := [] }
          = .error .typeError
      ∧ (combinations [0, 1, 2] 2).Nodup
      ∧ ∀ c ∈ combinations [0, 1, 2] 2, c.Sublist [0, 1, 2] ∧ c.length = 2) :=
  ⟨by decide, c10_combination_iterator_bug [0, 1, 2] 2 (by decide)⟩
